import Mathlib

/-!
Verification of the variant-indexing, caching, and edit-validation pipeline
of the gene-edit microservice (AgroTerror repository).

The definitions below are shallow embeddings of the Python sources:
  * `services/redis_cache.py`   — external cache gateway (`RedisCache`)
  * `services/bim_parser.py`    — variant catalog loader and index (`BIMParser`)
  * `services/dataset_manager.py` — dataset registry (`DatasetManager`)
  * `main.py`                   — dataset resolution helpers
  * `services/graph_crispr_service.py` — edit proposal generator
  * `services/dnabert_service.py` — edit validator

Python floats are modelled as `Rat`; machine integers as `Int`/`Nat`;
Python exceptions as `Except`; Python dicts as association lists where the
last insertion wins.  The scoring oracles (Graph-CRISPR efficiency model and
DNABERT sequence-score model) are external collaborators per the spec and
enter the embedding as function parameters.
-/

/-- One row of a BIM catalog: chromosome, SNP id, genetic distance, position,
reference allele, alternate allele (`bim_parser.py`, module doc and
`_build_index`).  The per-key dict the parser builds holds exactly these six
fields, so the indexed value is modelled as the record itself. -/
structure SNPRecord where
  chromosome : String
  snp_id : String
  genetic_distance : Rat
  position : Int
  ref_allele : String
  alt_allele : String
deriving DecidableEq, Repr

/-- The single failure kind of the underlying Redis client: any
`ConnectionError`, `TimeoutError`, decode failure or other exception raised
inside a gateway `try` block (`redis_cache.py`). -/
inductive CacheErr where
  | exn : CacheErr
deriving DecidableEq, Repr

instance {ε α : Type} [DecidableEq ε] [DecidableEq α] : DecidableEq (Except ε α) := fun a b =>
  match a, b with
  | .ok x, .ok y =>
    if h : x = y then .isTrue (by rw [h]) else .isFalse (fun hc => by cases hc; exact h rfl)
  | .error x, .error y =>
    if h : x = y then .isTrue (by rw [h]) else .isFalse (fun hc => by cases hc; exact h rfl)
  | .ok _, .error _ => .isFalse (fun hc => by cases hc)
  | .error _, .ok _ => .isFalse (fun hc => by cases hc)

/-- A snapshot of the underlying Redis client (`self.client` in
`redis_cache.py`).  Each primitive either returns a value or raises
(`Except.error`).  Hash fields for the SNP index are the strings
`f"{chrom}:{pos}"`; since positions print without a colon that encoding is
injective, so fields are modelled directly by the pair `(chrom, pos)`, and
stored JSON values by the decoded record. -/
structure RedisClient where
  ping : Except CacheErr Unit
  existsNum : String → Except CacheErr Int
  hget : String → (String × Int) → Except CacheErr (Option SNPRecord)
  getRegionVal : String → Except CacheErr (Option (List SNPRecord))
  hgetallStr : String → Except CacheErr (List (String × String))
  hsetSnp : String → List ((String × Int) × SNPRecord) → Except CacheErr Unit
  hsetStr : String → List (String × String) → Except CacheErr Unit
  expire : String → Int → Except CacheErr Unit
  setex : String → Int → List SNPRecord → Except CacheErr Unit
  keysPat : String → Except CacheErr (List String)
  delKeys : List String → Except CacheErr Int

/-- `RedisCache._get_index_key`. -/
def indexKey (ds : String) : String := "snp:index:" ++ ds

/-- `RedisCache._get_metadata_key`. -/
def metaKey (ds : String) : String := "snp:meta:" ++ ds

/-- `RedisCache._get_region_key`. -/
def regionKey (ds chrom : String) (start stop : Int) : String :=
  "snp:region:" ++ ds ++ ":" ++ chrom ++ ":" ++ toString start ++ ":" ++ toString stop

/-- `RedisCache.is_connected`: `False` when construction failed
(`client is None`), otherwise a `ping` guarded by a bare `except`. -/
def is_connected (c : Option RedisClient) : Bool :=
  match c with
  | none => false
  | some cl =>
    match cl.ping with
    | .ok _ => true
    | .error _ => false

/-- `RedisCache.cache_index_exists`: `self.client.exists(key) > 0` with
miss-on-error. -/
def cache_index_exists (c : Option RedisClient) (ds : String) : Except CacheErr Bool :=
  if !is_connected c then .ok false
  else
    match c with
    | none => .ok false
    | some cl =>
      match cl.existsNum (indexKey ds) with
      | .ok n => .ok (decide (0 < n))
      | .error _ => .ok false

/-- Python `try: body except: return` for a unit-returning gateway write:
the caller sees a normal return whatever the body did. -/
def tryUnit (b : Except CacheErr Unit) : Except CacheErr Unit :=
  match b with
  | .ok _ => .ok ()
  | .error _ => .ok ()

/-- `RedisCache.cache_index`: pipeline of metadata `hset`/`expire` and batched
index `hset`/`expire`, all inside one `try`.  The pipeline defers commands to
`execute()`; they are modelled as run sequentially.  Batching the index hash
into groups of 10000 fields does not change the stored hash and is elided. -/
def cache_index (c : Option RedisClient) (ds : String)
    (idx : List ((String × Int) × SNPRecord)) (meta : List (String × String))
    (ttl : Int) : Except CacheErr Unit :=
  if !is_connected c then .ok ()
  else
    match c with
    | none => .ok ()
    | some cl =>
      tryUnit (do
        if !meta.isEmpty then
          cl.hsetStr (metaKey ds) meta
          cl.expire (metaKey ds) ttl
        cl.hsetSnp (indexKey ds) idx
        cl.expire (indexKey ds) ttl)

/-- `RedisCache.get_cached_snp`: `hget` on the index hash, JSON-decode,
`None` on miss or on any error. -/
def get_cached_snp (c : Option RedisClient) (ds chrom : String) (pos : Int) :
    Except CacheErr (Option SNPRecord) :=
  if !is_connected c then .ok none
  else
    match c with
    | none => .ok none
    | some cl =>
      match cl.hget (indexKey ds) (chrom, pos) with
      | .ok (some r) => .ok (some r)
      | .ok none => .ok none
      | .error _ => .ok none

/-- `RedisCache.get_cached_region`: `get` on the region key, JSON-decode,
`None` on miss or on any error. -/
def get_cached_region (c : Option RedisClient) (ds chrom : String) (start stop : Int) :
    Except CacheErr (Option (List SNPRecord)) :=
  if !is_connected c then .ok none
  else
    match c with
    | none => .ok none
    | some cl =>
      match cl.getRegionVal (regionKey ds chrom start stop) with
      | .ok (some l) => .ok (some l)
      | .ok none => .ok none
      | .error _ => .ok none

/-- `RedisCache.cache_region`: `setex` with a short TTL, errors absorbed. -/
def cache_region (c : Option RedisClient) (ds chrom : String) (start stop : Int)
    (snps : List SNPRecord) (ttl : Int) : Except CacheErr Unit :=
  if !is_connected c then .ok ()
  else
    match c with
    | none => .ok ()
    | some cl =>
      match cl.setex (regionKey ds chrom start stop) ttl snps with
      | .ok _ => .ok ()
      | .error _ => .ok ()

/-- `RedisCache.get_cached_metadata`: `hgetall` (which returns a possibly
empty dict), `None` on any error. -/
def get_cached_metadata (c : Option RedisClient) (ds : String) :
    Except CacheErr (Option (List (String × String))) :=
  if !is_connected c then .ok none
  else
    match c with
    | none => .ok none
    | some cl =>
      match cl.hgetallStr (metaKey ds) with
      | .ok m => .ok (some m)
      | .error _ => .ok none

/-- `RedisCache.invalidate_dataset`: enumerate keys by pattern, delete them
when any exist, errors absorbed. -/
def invalidate_dataset (c : Option RedisClient) (ds : String) : Except CacheErr Unit :=
  if !is_connected c then .ok ()
  else
    match c with
    | none => .ok ()
    | some cl =>
      tryUnit (do
        let keys ← cl.keysPat ("snp:*:" ++ ds ++ "*")
        if !keys.isEmpty then
          let _ ← cl.delKeys keys
          pure ()
        else pure ())

/-- In-memory parser state (`bim_parser.py`, `BIMParser.__init__` fields).
`snp_index` models the Python dict as an insertion-ordered association list;
a later insertion of the same key shadows the earlier one (`dictGet`). -/
structure BIMParser where
  bim_file_path : String
  dataset_name : String
  use_cache : Bool
  snp_data : Option (List SNPRecord)
  snp_index : List ((String × Int) × SNPRecord)
  index_loaded : Bool
deriving DecidableEq, Repr

/-- `BIMParser.__init__`: `use_cache = use_cache and redis_cache is not None`,
no data loaded yet. -/
def initBIMParser (path ds : String) (hasRedis useCache : Bool) : BIMParser :=
  { bim_file_path := path
    dataset_name := ds
    use_cache := useCache && hasRedis
    snp_data := none
    snp_index := []
    index_loaded := false }

/-- Lookup in the dict modelled by an insertion-ordered association list:
the last binding of a key wins, as for repeated Python dict insertion. -/
def dictGet (d : List ((String × Int) × SNPRecord)) (k : String × Int) : Option SNPRecord :=
  ((d.filter (fun e => decide (e.1 = k))).getLast?).map (fun e => e.2)

/-- `BIMParser._build_index`: one `(chromosome, position) -> record` insertion
per row, in row order. -/
def buildIndex (rows : List SNPRecord) : List ((String × Int) × SNPRecord) :=
  rows.map (fun r => ((r.chromosome, r.position), r))

/-- `BIMParser.load_bim_file`.  The tab-separated file contents are presented
as the already-parsed `rows` (the loader's six fixed columns) and the stat'd
file size as `fileSize`.  Mirrors the source's control flow: a cached-index
fast path that sets `_index_loaded` without building `snp_index` (via
`_load_index_from_cache` and `_load_dataframe_only`), else a full load that
builds the index and caches it (`_build_index`, `_cache_index`).
`total_snps` in the metadata counts the dict's keys. -/
def loadBimFile (p : BIMParser) (c : Option RedisClient) (rows : List SNPRecord)
    (fileSize : Int) (force : Bool) : Except CacheErr BIMParser := do
  if p.index_loaded && !force then
    return p
  let fromCache ←
    if p.use_cache && !force then do
      let ex ← cache_index_exists c p.dataset_name
      if ex then do
        let meta ← get_cached_metadata c p.dataset_name
        let loaded :=
          match meta with
          | some m => !m.isEmpty
          | none => false
        if loaded then
          pure (some { p with index_loaded := true, snp_data := some rows })
        else
          pure (none : Option BIMParser)
      else
        pure (none : Option BIMParser)
    else
      pure (none : Option BIMParser)
  match fromCache with
  | some p' => pure p'
  | none => do
    let idx := buildIndex rows
    if p.use_cache && !idx.isEmpty then
      let meta :=
        [("dataset_name", p.dataset_name),
         ("total_snps", toString (idx.map Prod.fst).dedup.length),
         ("file_path", p.bim_file_path),
         ("file_size", toString fileSize)]
      let _ ← cache_index c p.dataset_name idx meta (86400 * 7)
      pure ()
    else
      pure ()
    pure { p with snp_data := some rows, snp_index := idx, index_loaded := true }

/-- `BIMParser.get_snp_at_position`: cache first (when enabled), then the
in-memory point index. -/
def get_snp_at_position (p : BIMParser) (c : Option RedisClient) (chrom : String)
    (pos : Int) : Except CacheErr (Option SNPRecord) := do
  let cached ← if p.use_cache then get_cached_snp c p.dataset_name chrom pos else pure none
  match cached with
  | some r => pure (some r)
  | none => pure (dictGet p.snp_index (chrom, pos))

/-- Whether a field of the tab-separated file is an integer literal (an
optional sign followed by digits), the form `pd.read_csv` parses as an
integer. -/
def isIntLiteral (s : String) : Bool :=
  match s.toList with
  | [] => false
  | c :: cs =>
    if c == '-' then !cs.isEmpty && cs.all Char.isDigit
    else (c :: cs).all Char.isDigit

/-- Whether `pd.read_csv` infers the int64 dtype for the chromosome column:
every field of the column is an integer literal (with `low_memory=False` one
dtype is inferred for the whole column).  Genomic catalogs with chromosomes
`1..22` fall in this case; columns containing a non-numeric name such as
`"X"` or `"chr1"` stay object (string) dtype. -/
def chromColIsInt (rows : List SNPRecord) : Bool :=
  rows.all (fun r => isIntLiteral r.chromosome)

/-- One row's worth of the pandas mask `df['chromosome'] == str(chromosome)`:
comparing an int64 column with a Python string is elementwise `False`
(pandas performs no int/str coercion); an object (string) column compares by
string equality.  `cell` is the field text (for an int64 column the stored
cell is its parsed integer, whose `str()` form the field text already is). -/
def pandasChromEq (isIntCol : Bool) (cell chrom : String) : Bool :=
  if isIntCol then false else cell == chrom

/-- `BIMParser.get_snps_in_region`: cached region first (when enabled), else
the pandas mask over the backing DataFrame — chromosome equality subject to
the column's inferred dtype (`pandasChromEq`), inclusive position bounds —
written back to the cache when non-empty. -/
def get_snps_in_region (p : BIMParser) (c : Option RedisClient) (chrom : String)
    (start stop : Int) : Except CacheErr (List SNPRecord) := do
  let cached ←
    if p.use_cache then get_cached_region c p.dataset_name chrom start stop else pure none
  match cached with
  | some l => pure l
  | none =>
    match p.snp_data with
    | none => pure []
    | some rows => do
      let snps := rows.filter (fun r =>
        pandasChromEq (chromColIsInt rows) r.chromosome chrom
          && decide (start ≤ r.position) && decide (r.position ≤ stop))
      if p.use_cache && !snps.isEmpty then
        let _ ← cache_region c p.dataset_name chrom start stop snps 3600
        pure ()
      else
        pure ()
      pure snps

/-- `BIMParser.find_snps_near_position`: sugar for a symmetric region query. -/
def find_snps_near_position (p : BIMParser) (c : Option RedisClient) (chrom : String)
    (pos window : Int) : Except CacheErr (List SNPRecord) :=
  get_snps_in_region p c chrom (pos - window) (pos + window)

/-- A live Redis client whose index hash for dataset `ds` holds exactly the
fields `cache_index` writes for `idx`, and whose metadata hash holds `meta`:
the cache contents after a successful `_cache_index` (or left over from an
earlier process run against the same catalog).  All primitives succeed. -/
def clientOfIndex (ds : String) (idx : List ((String × Int) × SNPRecord))
    (meta : List (String × String)) : RedisClient :=
  { ping := .ok ()
    existsNum := fun k => .ok (if k == indexKey ds && !idx.isEmpty then 1 else 0)
    hget := fun k f => .ok (if k == indexKey ds then dictGet idx f else none)
    getRegionVal := fun _ => .ok none
    hgetallStr := fun k => .ok (if k == metaKey ds then meta else [])
    hsetSnp := fun _ _ => .ok ()
    hsetStr := fun _ _ => .ok ()
    expire := fun _ _ => .ok ()
    setex := fun _ _ _ => .ok ()
    keysPat := fun _ => .ok []
    delKeys := fun _ => .ok 0 }

/-- A client every one of whose primitives raises: connection lost after
construction (timeouts, connection errors). -/
def clientAllFail : RedisClient :=
  { ping := .error .exn
    existsNum := fun _ => .error .exn
    hget := fun _ _ => .error .exn
    getRegionVal := fun _ => .error .exn
    hgetallStr := fun _ => .error .exn
    hsetSnp := fun _ _ => .error .exn
    hsetStr := fun _ _ => .error .exn
    expire := fun _ _ => .error .exn
    setex := fun _ _ _ => .error .exn
    keysPat := fun _ => .error .exn
    delKeys := fun _ => .error .exn }

/-- `dataset_manager.DatasetInfo` (the `file_path` is represented by whether
the file exists, the only property the resolution code reads). -/
structure DatasetInfo where
  name : String
  category : String
  plant_type : String
  display_name : String
  description : String
  file_exists : Bool
deriving DecidableEq, Repr

/-- `DatasetManager` after `_discover_datasets`: the insertion-ordered dict
from canonical lowercase name to descriptor. -/
structure DatasetManager where
  datasets : List (String × DatasetInfo)
deriving DecidableEq, Repr

/-- `DatasetManager.PLANT_CATEGORIES`. -/
def plantCategories : List (String × List String) :=
  [("cereals", ["maize", "rice", "millet"]),
   ("legumes", ["chikpea", "soyabean"]),
   ("fiber_crops", ["cotton"]),
   ("all", ["maize", "rice", "millet", "chikpea", "soyabean", "cotton"])]

/-- `DatasetManager.PLANT_DISPLAY_NAMES`, in dict order. -/
def plantDisplayNames : List (String × String) :=
  [("maize", "Maize (Corn)"),
   ("rice", "Rice"),
   ("millet", "Millet"),
   ("chikpea", "Chickpea"),
   ("soyabean", "Soybean"),
   ("cotton", "Cotton")]

/-- The `plant_variations` synonym table of `detect_plant_from_text`. -/
def plantVariations : List (String × String) :=
  [("corn", "maize"),
   ("chickpea", "chikpea"),
   ("chick pea", "chikpea"),
   ("soybean", "soyabean"),
   ("soy bean", "soyabean")]

/-- Python `str.lower` (over the characters the tables use). -/
def pyLower (s : String) : String := String.mk (s.toList.map Char.toLower)

/-- Python's substring test `needle in hay`: some suffix of `hay` starts with
`needle`. -/
def strContains (hay needle : String) : Bool :=
  hay.toList.tails.any (fun t => needle.toList.isPrefixOf t)

/-- `DatasetManager.detect_plant_from_text`: first match over the display-name
table (canonical name or lowercase display name as substring), then over the
colloquial synonym table, in dict iteration order. -/
def detect_plant_from_text (text : String) : Option String :=
  let tl := pyLower text
  match plantDisplayNames.find? (fun kv => strContains tl kv.1 || strContains tl (pyLower kv.2)) with
  | some kv => some kv.1
  | none =>
    match plantVariations.find? (fun kv => strContains tl kv.1) with
    | some kv => some kv.2
    | none => none

/-- `DatasetManager.get_dataset`: `self.datasets.get(name.lower())`. -/
def get_dataset (m : DatasetManager) (name : String) : Option DatasetInfo :=
  m.datasets.lookup (pyLower name)

/-- `DatasetManager.is_dataset_available`: `name.lower() in self.datasets`. -/
def is_dataset_available (m : DatasetManager) (name : String) : Bool :=
  (m.datasets.lookup (pyLower name)).isSome

/-- `DatasetManager.get_datasets_by_category`: `"all"` returns everything,
otherwise the category's plant list filtered to discovered datasets. -/
def get_datasets_by_category (m : DatasetManager) (cat : String) : List DatasetInfo :=
  if cat == "all" then m.datasets.map (fun kv => kv.2)
  else ((plantCategories.lookup cat).getD []).filterMap (fun pn => m.datasets.lookup pn)

/-- Priority 1 of `main._detect_dataset_from_request`: the explicit dataset
name, when truthy (Python: the empty string is falsy) and available. -/
def detectP1 (dm : Option DatasetManager) (dsName : Option String) : Option String :=
  match dsName, dm with
  | some s, some m =>
    if !s.isEmpty && is_dataset_available m s then some (pyLower s) else none
  | _, _ => none

/-- Priority 2 of `main._detect_dataset_from_request`: the first dataset of a
truthy, non-empty category. -/
def detectP2 (dm : Option DatasetManager) (cat : Option String) : Option String :=
  match cat, dm with
  | some ccat, some m =>
    if !ccat.isEmpty then
      match get_datasets_by_category m ccat with
      | [] => none
      | d :: _ => some d.name
    else none
  | _, _ => none

/-- Priority 3 of `main._detect_dataset_from_request`: free-text
auto-detection on a truthy request text. -/
def detectP3 (dm : Option DatasetManager) (text : String) : Option String :=
  match dm with
  | some _ => if !text.isEmpty then detect_plant_from_text text else none
  | none => none

/-- `main._detect_dataset_from_request`: the three sequential `return`s,
explicit name first, then category, then auto-detection, else `None`. -/
def detect_dataset_from_request (dm : Option DatasetManager) (text : String)
    (dsName cat : Option String) : Option String :=
  match detectP1 dm dsName with
  | some r => some r
  | none =>
    match detectP2 dm cat with
    | some r => some r
    | none => detectP3 dm text

/-- Python's `a or b` over optional strings: falsy (`None` or `""`) left
operand yields the right operand. -/
def pyOrOpt (a b : Option String) : Option String :=
  match a with
  | some s => if s.isEmpty then b else some s
  | none => b

/-- The dataset name that is active after `main._get_or_load_dataset`:
auto-detection result or the raw explicit name, validated against the
registry, falling back to the currently loaded dataset when unresolved,
already current, missing on disk, or failing to load (`loadOk = false`). -/
def get_or_load_active_name (dm : Option DatasetManager) (dsName cat : Option String)
    (text : String) (current : Option String) (loadOk : Bool) : Option String :=
  let detected := detect_dataset_from_request dm text dsName cat
  let target0 := pyOrOpt detected dsName
  let vp : Option String × Option DatasetInfo :=
    match target0, dm with
    | some t, some m =>
      if t.isEmpty then (target0, none)
      else
        match get_dataset m t with
        | some i => (some i.name, some i)
        | none => (none, none)
    | _, _ => (target0, none)
  match vp.1 with
  | none => current
  | some t =>
    if t.isEmpty then current
    else if some t == current then current
    else
      match vp.2 with
      | some i => if i.file_exists && loadOk then some t else current
      | none => current

/-- The efficiency oracle's per-window answer
(`predict_edit_efficiency` / the §6 edit-efficiency oracle contract). -/
structure Prediction where
  efficiency_score : Rat
  confidence : Rat
deriving DecidableEq, Repr

/-- One edit suggestion dict built by `GraphCRISPRService.suggest_edits`. -/
structure EditSuggestion where
  guide_rna : List Char
  target_position : Nat
  edit_type : String
  efficiency_score : Rat
  confidence : Rat
  original_base : Char
  target_base : Char
deriving DecidableEq, Repr

/-- The `bases` list of `_suggest_target_base`, in source order. -/
def dnaBases : List Char := ['A', 'T', 'G', 'C']

/-- Python `list.remove`: drop the first occurrence, `ValueError` when the
element is absent. -/
def listRemove (l : List Char) (b : Char) : Except Unit (List Char) :=
  match l with
  | [] => .error ()
  | x :: xs => if x == b then .ok xs else (listRemove xs b).map (fun r => x :: r)

/-- `GraphCRISPRService._suggest_target_base`: remove the original base from
the alphabet and take the head (`bases[0]`, an `IndexError` on an empty
list). -/
def suggest_target_base (b : Char) : Except Unit Char := do
  let rest ← listRemove dnaBases b
  match rest with
  | [] => .error ()
  | x :: _ => .ok x

/-- Python `range(a, b, step)` for naturals (`step > 0`). -/
def pyRangeStep (a b step : Nat) : List Nat :=
  List.range' a ((b - a + step - 1) / step) step

/-- `guide_length = 20` in `suggest_edits`. -/
def guideLength : Nat := 20

/-- `step = 3` in `suggest_edits`. -/
def suggestStep : Nat := 3

/-- The `(start, end)` pair `suggest_edits` derives from `target_region` (or
the whole sequence).  Region bounds are naturals: the only caller parses them
from the digit substrings of `"chrom:start-end"` (`main.py`), so they cannot
be negative. -/
def regionBounds (dna : List Char) (region : Option (Nat × Nat)) : Nat × Nat :=
  match region with
  | some r => r
  | none => (0, dna.length)

/-- The positions `for pos in range(start, end - guide_length, step)`
iterates over. -/
def loopPositions (dna : List Char) (region : Option (Nat × Nat)) : List Nat :=
  pyRangeStep (regionBounds dna region).1 ((regionBounds dna region).2 - guideLength) suggestStep

/-- The body of the `suggest_edits` window loop: slice the guide, skip short
windows, query the oracle, keep windows at or above the efficiency threshold,
and build the suggestion dict (midpoint symbol as original base, target base
from `_suggest_target_base`). -/
def suggestLoop (predict : List Char → List Char → Nat → Prediction) (dna : List Char)
    (minEff : Rat) : List Nat → Except Unit (List EditSuggestion)
  | [] => .ok []
  | pos :: rest =>
    let guide := (dna.drop pos).take guideLength
    if guide.length < guideLength then suggestLoop predict dna minEff rest
    else
      let pred := predict guide dna pos
      if minEff ≤ pred.efficiency_score then do
        let ob := if pos + guideLength / 2 < dna.length then dna.getD (pos + guideLength / 2) 'A' else 'A'
        let tb ← suggest_target_base ob
        let tail ← suggestLoop predict dna minEff rest
        pure (({ guide_rna := guide
                 target_position := pos + guideLength / 2
                 edit_type := "substitution"
                 efficiency_score := pred.efficiency_score
                 confidence := pred.confidence
                 original_base := ob
                 target_base := tb } : EditSuggestion) :: tail)
      else suggestLoop predict dna minEff rest

/-- Ordering used by `suggestions.sort(key=..., reverse=True)`: descending
efficiency score. -/
def effGE (a b : EditSuggestion) : Prop := b.efficiency_score ≤ a.efficiency_score

instance : DecidableRel effGE := fun a b =>
  inferInstanceAs (Decidable (b.efficiency_score ≤ a.efficiency_score))

instance : IsTotal EditSuggestion effGE := ⟨fun a b => le_total b.efficiency_score a.efficiency_score⟩

instance : IsTrans EditSuggestion effGE := ⟨fun _ _ _ hab hbc => le_trans hbc hab⟩

/-- `GraphCRISPRService.suggest_edits`: slide the window, then sort by
efficiency descending (Python's sort is stable; so is `insertionSort` under
`effGE`) and truncate to `max_suggestions` (a positive count: the request
model validates `ge=1`). -/
def suggest_edits (predict : List Char → List Char → Nat → Prediction) (dna : List Char)
    (region : Option (Nat × Nat)) (maxS : Nat) (minEff : Rat) :
    Except Unit (List EditSuggestion) := do
  let sugg ← suggestLoop predict dna minEff (loopPositions dna region)
  pure ((List.insertionSort effGE sugg).take maxS)

/-- The window offsets at which `suggest_edits` actually evaluates the oracle:
the loop's range positions at which the guide slice has the full width. -/
def evaluatedOffsets (dna : List Char) (region : Option (Nat × Nat)) : List Nat :=
  (loopPositions dna region).filter (fun pos => decide (pos + guideLength ≤ dna.length))

/-- The dict returned by `DNABERTService.validate_mutation`. -/
structure ValidationResult where
  original_score : Rat
  mutated_score : Rat
  difference : Rat
  log_odds_ratio : Rat
  validation_passed : Bool
  mutation_position : Int
deriving DecidableEq, Repr

/-- The edit dict consumed by `DNABERTService._apply_edit` (fields read with
`edit.get(..., default)`; the bases are Python strings, possibly empty or
longer than one symbol). -/
structure EditDict where
  target_position : Int
  edit_type : String
  original_base : String
  target_base : String
deriving DecidableEq, Repr

/-- Python `sequence[pos]` as a one-character string (the form `_apply_edit`
compares against `original_base`); out of range never occurs under the
guard. -/
def pyCharAt (s : List Char) (i : Nat) : String :=
  match s.get? i with
  | some c => String.mk [c]
  | none => ""

/-- `DNABERTService._apply_edit`: out-of-range positions return the sequence
unchanged; substitution only fires when the symbol at the position equals
`original_base`; insertion and deletion splice at the position; unknown edit
types fall through unchanged. -/
def apply_edit (sequence : List Char) (e : EditDict) : List Char :=
  let pos := e.target_position
  if pos < 0 || (sequence.length : Int) ≤ pos then sequence
  else
    let p := pos.toNat
    if e.edit_type == "substitution" then
      if pyCharAt sequence p == e.original_base then
        sequence.take p ++ e.target_base.toList ++ sequence.drop (p + 1)
      else sequence
    else if e.edit_type == "insertion" then
      sequence.take p ++ e.target_base.toList ++ sequence.drop p
    else if e.edit_type == "deletion" then
      sequence.take p ++ sequence.drop (p + 1)
    else sequence

/-- `DNABERTService.validate_mutation`, parametrised by the sequence-score
oracle `score` (`predict_sequence_score`, the §6 contract) and by the `log2`
function (`np.log2`, an external real-valued routine). -/
def validate_mutation (score : List Char → Rat) (log2 : Rat → Rat)
    (orig mutated : List Char) (pos : Int) (threshold : Rat) : ValidationResult :=
  let os := score orig
  let ms := score mutated
  let diff := ms - os
  let lor :=
    if 0 < os ∧ os < 1 ∧ 0 < ms ∧ ms < 1 then
      log2 (os / (1 - os)) - log2 (ms / (1 - ms))
    else 0
  { original_score := os
    mutated_score := ms
    difference := diff
    log_odds_ratio := lor
    validation_passed := decide (threshold ≤ |diff|)
    mutation_position := pos }

/-- `DNABERTService.validate_edits`: apply each edit and validate the mutated
sequence against the original, in order. -/
def validate_edits (score : List Char → Rat) (log2 : Rat → Rat) (orig : List Char)
    (edits : List EditDict) (threshold : Rat) : List ValidationResult :=
  edits.map (fun e =>
    validate_mutation score log2 orig (apply_edit orig e) e.target_position threshold)

/-- A constant all-pass efficiency oracle (60% efficiency, full confidence),
used to exercise the window loop. -/
def constPred : List Char → List Char → Nat → Prediction := fun _ _ _ => ⟨60, 1⟩

/-- The spec's 24-symbol concrete scenario sequence. -/
def dna24 : List Char := "ATCGATCGATCGATCGATCGATCG".toList

/-- A 23-symbol sequence: a full 20-symbol window fits at offsets 0 and 3. -/
def dna23 : List Char := "ATCGATCGATCGATCGATCGATC".toList

/-- A 23-symbol sequence whose symbol at index 10 (the midpoint of the window
at offset 0) is `'N'`, outside the uppercase DNA alphabet. -/
def dnaN23 : List Char := "ATCGATCGATNATCGATCGATCG".toList

/-- The spec's concrete catalog row `("1","rs1",0.0,100,"A","G")`. -/
def rowRs1 : SNPRecord := ⟨"1", "rs1", 0, 100, "A", "G"⟩

/-- The spec's concrete catalog row `("1","rs2",0.0,900,"A","T")`. -/
def rowRs2 : SNPRecord := ⟨"1", "rs2", 0, 900, "A", "T"⟩


/-- The parser state that `load_bim_file` produces when no cache is attached:
table loaded, point index built. -/
def loadedParserNoCache (path ds : String) (rows : List SNPRecord) : BIMParser :=
  ⟨path, ds, false, some rows, buildIndex rows, true⟩

/-- The parser state after loading the spec's two-row catalog without a cache
(`BIMParser(path, dataset_name, redis_cache=None)` followed by
`load_bim_file()`). -/
def p2c : BIMParser :=
  { bim_file_path := "maize.bim"
    dataset_name := "maize"
    use_cache := false
    snp_data := some [rowRs1, rowRs2]
    snp_index := buildIndex [rowRs1, rowRs2]
    index_loaded := true }


/-- The parser state that `load_bim_file` produces on the full-load path with
a cache attached: table loaded, point index built, index written through. -/
def loadedParserWithCache (path ds : String) (rows : List SNPRecord) : BIMParser :=
  ⟨path, ds, true, some rows, buildIndex rows, true⟩

/-- The parser state that `load_bim_file` produces on the cached-index fast
path (`_load_index_from_cache` + `_load_dataframe_only`): table loaded,
`_index_loaded` set, but `snp_index` left empty. -/
def cachedInitParser (path ds : String) (rows : List SNPRecord) : BIMParser :=
  ⟨path, ds, true, some rows, [], true⟩

/-- Metadata a previous run's `_cache_index` left in the cache for the
one-row catalog. -/
def metaB : List (String × String) :=
  [("dataset_name", "maize"), ("total_snps", "1"),
   ("file_path", "maize.bim"), ("file_size", "0")]

/-- Registry descriptor for the maize catalog as `_discover_datasets` builds
it. -/
def infoMaize : DatasetInfo :=
  ⟨"maize", "cereals", "cereal", "Maize (Corn)", "Maize (Corn) SNP dataset", true⟩

/-- Registry descriptor for the rice catalog as `_discover_datasets` builds
it. -/
def infoRice : DatasetInfo :=
  ⟨"rice", "cereals", "cereal", "Rice", "Rice SNP dataset", true⟩

/-- A registry that discovered the maize and rice catalogs. -/
def dmEx : DatasetManager := ⟨[("maize", infoMaize), ("rice", infoRice)]⟩

/-- The absorbing wrapper always returns normally. -/
theorem tryUnit_ok (b : Except CacheErr Unit) : tryUnit b = .ok () := by
  cases b <;> rfl

/-- C4: every external-cache gateway operation is best-effort.  For every
client state — including one whose construction failed (`c = none`) and one
whose primitives raise arbitrarily — no gateway operation propagates an
exception (`Except.error`) to its caller; when the cache is unavailable the
reads return the miss value (`none`/`false`) and the writes return normally;
when a *connected* client's own primitive raises (connection lost, timeout,
decode failure) the corresponding read likewise returns the miss value; and
a cache hit is never fabricated by an `except` branch — it reflects exactly
the value the client returned. -/
theorem gateway_best_effort (c : Option RedisClient) (ds chrom : String)
    (pos start stop ttl : Int) (snps : List SNPRecord)
    (idx : List ((String × Int) × SNPRecord)) (meta : List (String × String)) :
    (∃ b, cache_index_exists c ds = .ok b)
    ∧ cache_index c ds idx meta ttl = .ok ()
    ∧ (∃ v, get_cached_snp c ds chrom pos = .ok v)
    ∧ (∃ v, get_cached_region c ds chrom start stop = .ok v)
    ∧ cache_region c ds chrom start stop snps ttl = .ok ()
    ∧ (∃ v, get_cached_metadata c ds = .ok v)
    ∧ invalidate_dataset c ds = .ok ()
    ∧ (is_connected c = false →
        cache_index_exists c ds = .ok false
        ∧ get_cached_snp c ds chrom pos = .ok none
        ∧ get_cached_region c ds chrom start stop = .ok none
        ∧ get_cached_metadata c ds = .ok none)
    ∧ (∀ cl, c = some cl → ∀ e,
        (cl.existsNum (indexKey ds) = .error e → cache_index_exists c ds = .ok false)
        ∧ (cl.hget (indexKey ds) (chrom, pos) = .error e →
            get_cached_snp c ds chrom pos = .ok none)
        ∧ (cl.getRegionVal (regionKey ds chrom start stop) = .error e →
            get_cached_region c ds chrom start stop = .ok none)
        ∧ (cl.hgetallStr (metaKey ds) = .error e →
            get_cached_metadata c ds = .ok none))
    ∧ (∀ cl r, c = some cl → get_cached_snp c ds chrom pos = .ok (some r) →
        cl.hget (indexKey ds) (chrom, pos) = .ok (some r)) := by
  refine ⟨?_, ?_, ?_, ?_, ?_, ?_, ?_, ?_, ?_, ?_⟩
  · unfold cache_index_exists
    split
    · exact ⟨false, rfl⟩
    · split
      · exact ⟨false, rfl⟩
      · split <;> exact ⟨_, rfl⟩
  · unfold cache_index
    split
    · rfl
    · split
      · rfl
      · exact tryUnit_ok _
  · unfold get_cached_snp
    split
    · exact ⟨none, rfl⟩
    · split
      · exact ⟨none, rfl⟩
      · split <;> exact ⟨_, rfl⟩
  · unfold get_cached_region
    split
    · exact ⟨none, rfl⟩
    · split
      · exact ⟨none, rfl⟩
      · split <;> exact ⟨_, rfl⟩
  · unfold cache_region
    split
    · rfl
    · split
      · rfl
      · split <;> rfl
  · unfold get_cached_metadata
    split
    · exact ⟨none, rfl⟩
    · split
      · exact ⟨none, rfl⟩
      · split <;> exact ⟨_, rfl⟩
  · unfold invalidate_dataset
    split
    · rfl
    · split
      · rfl
      · exact tryUnit_ok _
  · intro hdown
    unfold cache_index_exists get_cached_snp get_cached_region get_cached_metadata
    simp [hdown]
  · intro cl hc e
    subst hc
    refine ⟨?_, ?_, ?_, ?_⟩
    · intro herr
      unfold cache_index_exists
      split
      · rfl
      · simp [herr]
    · intro herr
      unfold get_cached_snp
      split
      · rfl
      · simp [herr]
    · intro herr
      unfold get_cached_region
      split
      · rfl
      · simp [herr]
    · intro herr
      unfold get_cached_metadata
      split
      · rfl
      · simp [herr]
  · intro cl r hc hok
    subst hc
    unfold get_cached_snp at hok
    split at hok
    · simp at hok
    · cases hget : cl.hget (indexKey ds) (chrom, pos) with
      | error e => simp [hget] at hok
      | ok v =>
        cases v with
        | none => simp [hget] at hok
        | some r' =>
          simp only [hget, Except.ok.injEq, Option.some.injEq] at hok
          rw [hok]

/-- Witness for C4 at two concrete failure modes: a cache whose construction
failed, and a client every one of whose primitives raises. -/
theorem gateway_best_effort_witness :
    cache_index_exists none "maize" = .ok false
    ∧ get_cached_snp (some clientAllFail) "maize" "1" 100 = .ok none
    ∧ get_cached_region (some clientAllFail) "maize" "1" 0 10 = .ok none
    ∧ get_cached_metadata (some clientAllFail) "maize" = .ok none := by
  have hdown := (gateway_best_effort none "maize" "1" 100 0 10 3600 [] [] []).2.2.2.2.2.2.2.1 rfl
  have hfail := (gateway_best_effort (some clientAllFail) "maize" "1" 100 0 10 3600 [] []
    []).2.2.2.2.2.2.2.2.1 clientAllFail rfl CacheErr.exn
  exact ⟨hdown.1, hfail.2.1 rfl, hfail.2.2.1 rfl, hfail.2.2.2 rfl⟩

/-- C9: for every original base in the DNA alphabet, `_suggest_target_base`
returns (without raising) exactly the first symbol of the alphabet
`['A','T','G','C']` that differs from the original, and that symbol never
equals the original. -/
theorem target_base_first_different (b : Char) (hb : b ∈ dnaBases) :
    ∃ c, suggest_target_base b = .ok c
      ∧ (dnaBases.filter (fun x => decide (x ≠ b))).head? = some c
      ∧ c ≠ b := by
  simp only [dnaBases, List.mem_cons, List.not_mem_nil, or_false] at hb
  rcases hb with rfl | rfl | rfl | rfl
  · exact ⟨'T', by decide, by decide, by decide⟩
  · exact ⟨'A', by decide, by decide, by decide⟩
  · exact ⟨'A', by decide, by decide, by decide⟩
  · exact ⟨'A', by decide, by decide, by decide⟩

/-- Witness for C9 at the original base `'C'`. -/
theorem target_base_first_different_witness :
    ∃ c, suggest_target_base 'C' = .ok c
      ∧ (dnaBases.filter (fun x => decide (x ≠ 'C'))).head? = some c
      ∧ c ≠ 'C' :=
  target_base_first_different 'C' (by decide)

/-- C10: `suggest_edits` is not total on sequences outside the uppercase DNA
alphabet: on a 23-symbol sequence whose surviving window's midpoint symbol is
`'N'`, the `bases.remove(original_base)` call in `_suggest_target_base`
raises an unhandled `ValueError` (here `Except.error`) instead of returning a
suggestion list, even though the efficiency oracle accepted the window. -/
theorem suggest_edits_nonacgt_raises :
    suggest_edits constPred dnaN23 none 5 50 = .error () := by decide

/-- C7: applying a substitution edit whose `original_base` does not match the
sequence symbol at an in-range `target_position` leaves the sequence
unchanged, and validating the (unchanged) mutation yields `difference = 0`:
both scores are the oracle's score of the same sequence. -/
theorem substitution_guard_mismatch (score : List Char → Rat) (log2 : Rat → Rat)
    (s : List Char) (e : EditDict) (threshold : Rat)
    (htype : e.edit_type = "substitution")
    (hlo : 0 ≤ e.target_position) (hhi : e.target_position < (s.length : Int))
    (hmis : pyCharAt s e.target_position.toNat ≠ e.original_base) :
    apply_edit s e = s
    ∧ (validate_mutation score log2 s (apply_edit s e) e.target_position threshold).difference
        = 0 := by
  have happ : apply_edit s e = s := by
    unfold apply_edit
    have c1 : ¬ (e.target_position < 0) := not_lt.mpr hlo
    have c2 : ¬ ((s.length : Int) ≤ e.target_position) := not_le.mpr hhi
    simp [c1, c2, htype, hmis]
  refine ⟨happ, ?_⟩
  rw [happ]
  unfold validate_mutation
  simp

/-- Witness for C7: the spec's concrete scenario — substitution at position 5
with `original_base = 'A'` on a sequence whose symbol at position 5 is
`'T'`. -/
theorem substitution_guard_mismatch_witness :
    apply_edit dna24 ⟨5, "substitution", "A", "G"⟩ = dna24
    ∧ (validate_mutation (fun _ => 1/2) (fun _ => 0) dna24
        (apply_edit dna24 ⟨5, "substitution", "A", "G"⟩) 5 (1/10)).difference = 0 :=
  substitution_guard_mismatch (fun _ => 1/2) (fun _ => 0) dna24
    ⟨5, "substitution", "A", "G"⟩ (1/10) rfl (by decide) (by decide) (by decide)

/-- Every suggestion the window loop emits passed the efficiency threshold. -/
theorem suggestLoop_mem (predict : List Char → List Char → Nat → Prediction)
    (dna : List Char) (minEff : Rat) :
    ∀ (ps : List Nat) (l : List EditSuggestion),
      suggestLoop predict dna minEff ps = .ok l → ∀ s ∈ l, minEff ≤ s.efficiency_score := by
  intro ps
  induction ps with
  | nil =>
    intro l h s hs
    simp only [suggestLoop] at h
    cases h
    simp at hs
  | cons pos rest ih =>
    intro l h s hs
    rw [suggestLoop] at h
    simp only [bind, Except.bind, pure] at h
    split at h
    · exact ih l h s hs
    · split at h
      · split at h
        · simp at h
        · split at h
          · simp at h
          · simp only [Except.pure] at h
            cases h
            rcases List.mem_cons.mp hs with rfl | hmem
            · assumption
            · exact ih _ (by assumption) s hmem
      · exact ih l h s hs

/-- C5: `suggest_edits` returns at most `max_suggestions` suggestions, each
with `efficiency_score ≥ min_efficiency`, and the list is sorted by
efficiency score in descending order. -/
theorem suggest_bounded_filtered_sorted (predict : List Char → List Char → Nat → Prediction)
    (dna : List Char) (region : Option (Nat × Nat)) (maxS : Nat) (minEff : Rat)
    (l : List EditSuggestion)
    (h : suggest_edits predict dna region maxS minEff = .ok l) :
    l.length ≤ maxS ∧ (∀ s ∈ l, minEff ≤ s.efficiency_score) ∧ List.Sorted effGE l := by
  unfold suggest_edits at h
  cases hl : suggestLoop predict dna minEff (loopPositions dna region) with
  | error e => rw [hl] at h; simp [Except.bind, bind] at h
  | ok sugg =>
    rw [hl] at h
    simp only [bind, Except.bind, Except.pure, pure] at h
    cases h
    refine ⟨List.length_take_le _ _, ?_, ?_⟩
    · intro s hs
      exact suggestLoop_mem predict dna minEff _ sugg hl s
        ((List.mem_insertionSort effGE).mp (List.mem_of_mem_take hs))
    · exact List.Pairwise.sublist (List.take_sublist _ _) (List.sorted_insertionSort effGE sugg)

/-- Witness for C5: the 24-symbol scenario sequence with the constant oracle,
`max_suggestions = 2`, `min_efficiency = 50`. -/
theorem suggest_bounded_filtered_sorted_witness :
    ∃ l, suggest_edits constPred dna24 none 2 50 = .ok l
      ∧ l.length ≤ 2 ∧ (∀ s ∈ l, 50 ≤ s.efficiency_score) ∧ List.Sorted effGE l := by
  cases hl : suggest_edits constPred dna24 none 2 50 with
  | error e =>
    cases e
    exact absurd hl (by decide)
  | ok l => exact ⟨l, rfl, suggest_bounded_filtered_sorted constPred dna24 none 2 50 l hl⟩

/-- `_suggest_target_base` succeeds on every base of the DNA alphabet. -/
theorem suggest_target_base_isOk (b : Char) (hb : b ∈ dnaBases) :
    ∃ c, suggest_target_base b = .ok c := by
  simp only [dnaBases, List.mem_cons, List.not_mem_nil, or_false] at hb
  rcases hb with rfl | rfl | rfl | rfl
  · exact ⟨'T', by decide⟩
  · exact ⟨'A', by decide⟩
  · exact ⟨'A', by decide⟩
  · exact ⟨'A', by decide⟩

/-- Membership in Python's `range(a, b, 3)`. -/
theorem pyRange3_mem (a b x : Nat) :
    x ∈ pyRangeStep a b 3 ↔ ∃ k, x = a + 3 * k ∧ x < b := by
  unfold pyRangeStep
  rw [List.mem_range']
  constructor
  · rintro ⟨i, hi, rfl⟩
    exact ⟨i, rfl, by omega⟩
  · rintro ⟨k, rfl, hlt⟩
    exact ⟨k, by omega, rfl⟩

/-- The window loop emits exactly one suggestion per full-width window that
passes the efficiency threshold, in offset order, with the target position at
the window midpoint. -/
theorem suggestLoop_shape (predict : List Char → List Char → Nat → Prediction)
    (dna : List Char) (minEff : Rat) (hbases : ∀ c ∈ dna, c ∈ dnaBases) :
    ∀ ps : List Nat, ∃ l, suggestLoop predict dna minEff ps = .ok l
      ∧ l.map (fun s => s.target_position)
        = ((ps.filter (fun pos => decide (pos + guideLength ≤ dna.length))).filter
            (fun pos =>
              decide (minEff ≤ (predict ((dna.drop pos).take guideLength) dna pos).efficiency_score))).map
            (fun pos => pos + guideLength / 2) := by
  intro ps
  induction ps with
  | nil => exact ⟨[], rfl, rfl⟩
  | cons pos rest ih =>
    obtain ⟨tail, htl, hmap⟩ := ih
    have hlen : ((dna.drop pos).take guideLength).length = min guideLength (dna.length - pos) := by
      simp [List.length_take, List.length_drop]
    by_cases hfit : pos + guideLength ≤ dna.length
    · have hguard : ¬ ((dna.drop pos).take guideLength).length < guideLength := by
        rw [hlen]; omega
      by_cases hpass : minEff ≤ (predict ((dna.drop pos).take guideLength) dna pos).efficiency_score
      · have hmid : pos + guideLength / 2 < dna.length := by
          simp only [guideLength] at hfit ⊢; omega
        have hob : dna.getD (pos + guideLength / 2) 'A' ∈ dnaBases := by
          apply hbases
          rw [List.getD_eq_getElem?_getD, List.getElem?_eq_getElem hmid]
          exact List.getElem_mem hmid
        obtain ⟨tb, htb⟩ := suggest_target_base_isOk _ hob
        refine ⟨({ guide_rna := (dna.drop pos).take guideLength
                   target_position := pos + guideLength / 2
                   edit_type := "substitution"
                   efficiency_score := (predict ((dna.drop pos).take guideLength) dna pos).efficiency_score
                   confidence := (predict ((dna.drop pos).take guideLength) dna pos).confidence
                   original_base := dna.getD (pos + guideLength / 2) 'A'
                   target_base := tb } : EditSuggestion) :: tail, ?_, ?_⟩
        · rw [suggestLoop, if_neg hguard, if_pos hpass, if_pos hmid]
          simp only [bind, Except.bind]
          rw [htb, htl]
          rfl
        · simp only [List.filter_cons, decide_eq_true_eq, hfit, hpass, if_pos, List.map_cons]
          rw [hmap]
      · refine ⟨tail, ?_, ?_⟩
        · rw [suggestLoop, if_neg hguard, if_neg hpass]
          exact htl
        · simp only [List.filter_cons, decide_eq_true_eq, hfit, if_pos]
          rw [if_neg (by simpa using hpass)]
          exact hmap
    · have hguard : ((dna.drop pos).take guideLength).length < guideLength := by
        rw [hlen]; simp only [guideLength] at hfit ⊢; omega
      refine ⟨tail, ?_, ?_⟩
      · rw [suggestLoop, if_pos hguard]
        exact htl
      · rw [List.filter_cons_of_neg (by simpa using hfit)]
        exact hmap

/-- C6 (amended): `suggest_edits` evaluates the oracle exactly at the offsets
`start + 3k` whose full 20-symbol window ends *strictly before* the region
end (`pos + 20 < end`, from `range(start, end - guide_length, 3)`) and fits
the sequence; each passing evaluation yields the suggestion at the midpoint.
On the 24-symbol scenario the evaluated offsets are exactly 0 and 3. -/
theorem window_offsets (predict : List Char → List Char → Nat → Prediction)
    (dna : List Char) (region : Option (Nat × Nat)) (minEff : Rat)
    (hbases : ∀ c ∈ dna, c ∈ dnaBases) :
    (∃ l, suggestLoop predict dna minEff (loopPositions dna region) = .ok l
       ∧ l.map (fun s => s.target_position)
           = ((evaluatedOffsets dna region).filter
               (fun pos =>
                 decide (minEff ≤ (predict ((dna.drop pos).take guideLength) dna pos).efficiency_score))).map
               (fun pos => pos + guideLength / 2))
    ∧ (∀ pos, pos ∈ evaluatedOffsets dna region ↔
         ((∃ k, pos = (regionBounds dna region).1 + suggestStep * k)
           ∧ pos + guideLength < (regionBounds dna region).2
           ∧ pos + guideLength ≤ dna.length))
    ∧ evaluatedOffsets dna24 none = [0, 3] := by
  refine ⟨suggestLoop_shape predict dna minEff hbases (loopPositions dna region), ?_, by decide⟩
  intro pos
  unfold evaluatedOffsets loopPositions
  simp only [suggestStep, List.mem_filter, decide_eq_true_eq]
  rw [pyRange3_mem]
  constructor
  · rintro ⟨⟨k, rfl, hlt⟩, hfit⟩
    exact ⟨⟨k, rfl⟩, by omega, hfit⟩
  · rintro ⟨⟨k, rfl⟩, hlt, hfit⟩
    exact ⟨⟨k, rfl, by omega⟩, hfit⟩

/-- Witness for C6 (amended): the 24-symbol scenario evaluates offsets 0 and
3 only. -/
theorem window_offsets_witness : evaluatedOffsets dna24 none = [0, 3] :=
  (window_offsets constPred dna24 none 50 (by decide)).2.2

/-- C6 counterexample: on a 23-symbol sequence a full 20-symbol window fits
at offset `3 = 0 + 3·1` (`3 + 20 ≤ 23`), yet with an all-pass oracle
`suggest_edits` produces only the offset-0 suggestion (target position 10):
the loop bound `range(start, end - guide_length, step)` excludes the offset
whose window ends exactly at the region end, so the claim's "every offset at
which a full window fits" is false. -/
theorem window_offsets_counterexample :
    (∃ l, suggest_edits constPred dna23 none 5 50 = .ok l
       ∧ l.map (fun s => s.target_position) = [10])
    ∧ 3 = 0 + suggestStep * 1
    ∧ 3 + guideLength ≤ dna23.length := by
  refine ⟨⟨[⟨"ATCGATCGATCGATCGATCG".toList, 10, "substitution", 60, 1, 'C', 'A'⟩],
    by decide, by decide⟩, by decide, by decide⟩

/-- C2: evaluation of the code at the spec's own concrete scenario shows the
claim failing on the code.  The two-row catalog's chromosome column holds
only the integer literal `1`, so `pd.read_csv` infers int64 and the region
mask `df['chromosome'] == str(chromosome)` is elementwise `False`:
`nearPosition("1", 500, 1000)` returns the empty list instead of both
records (and `nearPosition("1", 500, 300)` returns the empty list for the
wrong reason).  The same parser's point query *does* find the record at
`("1", 100)`, because `_build_index` coerces with `str(row['chromosome'])`
— exposing the in-code inconsistency between the two query paths. -/
theorem range_query_dtype_mismatch :
    chromColIsInt [rowRs1, rowRs2] = true
    ∧ loadBimFile (initBIMParser "maize.bim" "maize" false true) none [rowRs1, rowRs2] 0 false
        = .ok p2c
    ∧ find_snps_near_position p2c none "1" 500 1000 = .ok []
    ∧ find_snps_near_position p2c none "1" 500 300 = .ok []
    ∧ get_snp_at_position p2c none "1" 100 = .ok (some rowRs1)
    ∧ ([] : List SNPRecord) ≠ [rowRs1, rowRs2] := by
  refine ⟨by decide, by decide, by decide, by decide, by decide, by decide⟩

/-- C8 counterexample: the degenerate range query `start = 500 ≥ end = 300`
on the spec's concrete catalog is not rejected: it succeeds (`Except.ok`)
with the empty list, and no error of any kind is produced — there is no
`InvalidQueryRange` check anywhere on the query path (`get_snps_in_region`
and the `/api/v1/snps` endpoint perform no `start ≥ end` validation). -/
theorem degenerate_range_not_rejected :
    get_snps_in_region p2c none "1" 500 300 = .ok []
    ∧ (∀ e, get_snps_in_region p2c none "1" 500 300 ≠ .error e)
    ∧ (300 : Int) < 500 := by
  refine ⟨by decide, ?_, by decide⟩
  intro e
  cases e
  decide

/-- C8 (amended): a range query with `start > end` is accepted at every
boundary and succeeds with the empty result (the inclusive position bounds
are unsatisfiable), and every range query on a loaded catalog succeeds with
a normal result — no `InvalidQueryRange` rejection exists anywhere on the
query path. -/
theorem degenerate_range_empty (path ds chrom : String) (rows : List SNPRecord) (a b : Int)
    (p : BIMParser)
    (h : loadBimFile (initBIMParser path ds false true) none rows 0 false = .ok p) :
    (b < a → get_snps_in_region p none chrom a b = .ok [])
    ∧ (∃ l, get_snps_in_region p none chrom a b = .ok l) := by
  have hp : p = loadedParserNoCache path ds rows := by
    simp [loadBimFile, initBIMParser, loadedParserNoCache, bind, Except.bind, pure,
      Except.pure] at h
    exact h.symm
  subst hp
  have hq : get_snps_in_region (loadedParserNoCache path ds rows) none chrom a b
      = .ok (rows.filter (fun r =>
          pandasChromEq (chromColIsInt rows) r.chromosome chrom
            && decide (a ≤ r.position) && decide (r.position ≤ b))) := by
    simp [get_snps_in_region, loadedParserNoCache, bind, Except.bind, pure, Except.pure]
  refine ⟨?_, ⟨_, hq⟩⟩
  intro hba
  rw [hq]
  have hnil : rows.filter (fun r =>
      pandasChromEq (chromColIsInt rows) r.chromosome chrom
        && decide (a ≤ r.position) && decide (r.position ≤ b)) = [] := by
    apply List.filter_eq_nil_iff.mpr
    intro r _
    simp only [Bool.and_eq_true, decide_eq_true_eq, not_and]
    intro hab h2
    have h1 := hab.2
    omega
  rw [hnil]

/-- Witness for C8 (amended): the degenerate query on the two-row catalog. -/
theorem degenerate_range_empty_witness :
    get_snps_in_region (loadedParserNoCache "maize.bim" "maize" [rowRs1, rowRs2]) none "1" 500 300
      = .ok [] :=
  (degenerate_range_empty "maize.bim" "maize" "1" [rowRs1, rowRs2] 500 300 _ (by decide)).1
    (by decide)

/-- C1 (amended): when the parser built the point index itself (full-load
path: no pre-existing cached index), the cache path of
`get_snp_at_position` — reading from a cache whose index hash holds exactly
what `_cache_index` wrote — returns the same value as the in-memory fallback
for every key, and the composed point query returns that common value. -/
theorem point_query_cache_source_equiv (path ds chrom : String) (rows : List SNPRecord)
    (pos : Int) (meta : List (String × String)) (pA : BIMParser)
    (h : loadBimFile (initBIMParser path ds true true) (some (clientOfIndex ds [] []))
           rows 0 false = .ok pA) :
    pA.snp_index = buildIndex rows
    ∧ get_cached_snp (some (clientOfIndex ds pA.snp_index meta)) ds chrom pos
        = .ok (dictGet pA.snp_index (chrom, pos))
    ∧ get_snp_at_position pA (some (clientOfIndex ds pA.snp_index meta)) chrom pos
        = .ok (dictGet (buildIndex rows) (chrom, pos)) := by
  have hp : pA = loadedParserWithCache path ds rows := by
    simp [loadBimFile, initBIMParser, loadedParserWithCache, cache_index_exists, is_connected,
      clientOfIndex, cache_index, tryUnit, indexKey, metaKey, bind, Except.bind, pure,
      Except.pure] at h
    exact h.symm
  subst hp
  have hcached : get_cached_snp (some (clientOfIndex ds (buildIndex rows) meta)) ds chrom pos
      = .ok (dictGet (buildIndex rows) (chrom, pos)) := by
    simp only [get_cached_snp, is_connected, clientOfIndex]
    cases hd : dictGet (buildIndex rows) (chrom, pos) <;> simp [hd]
  refine ⟨rfl, hcached, ?_⟩
  simp only [get_snp_at_position, loadedParserWithCache, bind, Except.bind, pure, Except.pure,
    if_true]
  rw [hcached]
  cases hd : dictGet (buildIndex rows) (chrom, pos) <;> simp

/-- Witness for C1 (amended) at the one-row catalog and the key
`("1", 100)`. -/
theorem point_query_cache_source_equiv_witness :
    (loadedParserWithCache "maize.bim" "maize" [rowRs1]).snp_index = buildIndex [rowRs1]
    ∧ get_cached_snp
        (some (clientOfIndex "maize" (loadedParserWithCache "maize.bim" "maize" [rowRs1]).snp_index metaB))
        "maize" "1" 100
        = .ok (dictGet (loadedParserWithCache "maize.bim" "maize" [rowRs1]).snp_index ("1", 100))
    ∧ get_snp_at_position (loadedParserWithCache "maize.bim" "maize" [rowRs1])
        (some (clientOfIndex "maize" (loadedParserWithCache "maize.bim" "maize" [rowRs1]).snp_index metaB))
        "1" 100
        = .ok (dictGet (buildIndex [rowRs1]) ("1", 100)) :=
  point_query_cache_source_equiv "maize.bim" "maize" "1" [rowRs1] 100 metaB _ (by decide)

/-- C1 counterexample: a parser initialized from a pre-existing cached index
(the `_load_index_from_cache` fast path) keeps `snp_index` empty, so at the
key `("1", 100)` the cache path returns the record while the in-memory
fallback returns `None`; the two paths disagree, and if the cache then
becomes unavailable the composed point query loses the record entirely. -/
theorem point_query_cache_source_equiv_counterexample :
    loadBimFile (initBIMParser "maize.bim" "maize" true true)
        (some (clientOfIndex "maize" (buildIndex [rowRs1]) metaB)) [rowRs1] 0 false
      = .ok (cachedInitParser "maize.bim" "maize" [rowRs1])
    ∧ get_cached_snp (some (clientOfIndex "maize" (buildIndex [rowRs1]) metaB)) "maize" "1" 100
        = .ok (some rowRs1)
    ∧ dictGet (cachedInitParser "maize.bim" "maize" [rowRs1]).snp_index ("1", 100) = none
    ∧ get_snp_at_position (cachedInitParser "maize.bim" "maize" [rowRs1])
        (some clientAllFail) "1" 100 = .ok none
    ∧ (some rowRs1 : Option SNPRecord) ≠ none := by
  refine ⟨by decide, by decide, by decide, by decide, by decide⟩

/-- C3 counterexample: for a request whose text auto-detects to `"maize"`
(via the `"corn"` synonym) while the explicit dataset-name field names the
available dataset `"rice"`, resolution returns `"rice"`, not the auto-detected
name: the explicit name has the highest priority, not auto-detection. -/
theorem dataset_priority_counterexample :
    detect_plant_from_text "corn field" = some "maize"
    ∧ detect_dataset_from_request (some dmEx) "corn field" (some "rice") none = some "rice"
    ∧ get_or_load_active_name (some dmEx) (some "rice") none "corn field" none true = some "rice"
    ∧ (some "rice" : Option String) ≠ some "maize" := by
  refine ⟨by decide, by decide, by decide, by decide⟩

/-- C3 (amended): dataset resolution tries the explicit dataset-name field
first (truthy and available), then the explicit category (first dataset of a
non-empty category), then free-text auto-detection; when all three fail the
currently loaded dataset remains active. -/
theorem dataset_priority (m : DatasetManager) (text : String) (dsName cat : Option String)
    (current : Option String) (loadOk : Bool) :
    (∀ s, dsName = some s → s.isEmpty = false → is_dataset_available m s = true →
       detect_dataset_from_request (some m) text dsName cat = some (pyLower s))
    ∧ (∀ c d ds',
        (dsName = none ∨ dsName = some "" ∨ (∀ s, dsName = some s → is_dataset_available m s = false)) →
        cat = some c → c.isEmpty = false → get_datasets_by_category m c = d :: ds' →
        detect_dataset_from_request (some m) text dsName cat = some d.name)
    ∧ ((dsName = none ∨ dsName = some "" ∨ (∀ s, dsName = some s → is_dataset_available m s = false)) →
        (cat = none ∨ cat = some "" ∨ (∀ c, cat = some c → get_datasets_by_category m c = [])) →
        text.isEmpty = false →
        detect_dataset_from_request (some m) text dsName cat = detect_plant_from_text text)
    ∧ (detect_dataset_from_request (some m) text dsName cat = none →
        get_or_load_active_name (some m) dsName cat text current loadOk = current) := by
  have hp1none : (dsName = none ∨ dsName = some "" ∨
      (∀ s, dsName = some s → is_dataset_available m s = false)) →
      detectP1 (some m) dsName = none := by
    rintro (rfl | rfl | hfail)
    · rfl
    · rfl
    · cases dsName with
      | none => rfl
      | some s => simp [detectP1, hfail s rfl]
  refine ⟨?_, ?_, ?_, ?_⟩
  · intro s hds htruthy havail
    subst hds
    simp [detect_dataset_from_request, detectP1, htruthy, havail]
  · intro c d ds' hds hcat hctruthy hbycat
    subst hcat
    unfold detect_dataset_from_request
    rw [hp1none hds]
    simp [detectP2, hctruthy, hbycat]
  · intro hds hcat htext
    unfold detect_dataset_from_request
    rw [hp1none hds]
    have hp2none : detectP2 (some m) cat = none := by
      rcases hcat with rfl | rfl | hempty
      · rfl
      · rfl
      · cases cat with
        | none => rfl
        | some c => simp [detectP2, hempty c rfl]
    rw [hp2none]
    simp [detectP3, htext]
  · intro hddfr
    unfold get_or_load_active_name
    rw [hddfr]
    cases dsName with
    | none => rfl
    | some s =>
      by_cases hse : s.isEmpty
      · simp [pyOrOpt, hse]
      · have havail : is_dataset_available m s = false := by
          by_contra hne
          have havail' : is_dataset_available m s = true := by
            cases hv : is_dataset_available m s
            · exact absurd hv hne
            · rfl
          have hcontra : detect_dataset_from_request (some m) text (some s) cat
              = some (pyLower s) := by
            simp [detect_dataset_from_request, detectP1, hse, havail']
          rw [hddfr] at hcontra
          cases hcontra
        have hget : get_dataset m s = none := by
          unfold is_dataset_available at havail
          unfold get_dataset
          cases hl : (m.datasets.lookup (pyLower s)) with
          | none => rfl
          | some i => rw [hl] at havail; cases havail
        simp [pyOrOpt, hse, hget]

/-- Witness for C3 (amended): with the maize/rice registry, an available
explicit name `"rice"` wins even though the text contains `"corn"`. -/
theorem dataset_priority_witness :
    detect_dataset_from_request (some dmEx) "corn field" (some "rice") none
      = some (pyLower "rice") :=
  (dataset_priority dmEx "corn field" (some "rice") none none true).1 "rice" rfl
    (by decide) (by decide)
